import Mathlib

/-!
# Template discovery and parameterization (vm-import-operator)

A shallow embedding of `pkg/templates/template-provider.go` and of the lookup
helpers of `tests/ovirt/cancel_vm_import_test.go`.

* Go strings are Lean strings, `fmt.Sprintf` and `strings.Join` are embedded for
  the one verb and the one shape of call the package uses.
* A Go map is an association list with unique keys; the order in which
  `for k := range m` visits the keys is not fixed by the language, so the
  loop takes the order chosen by the runtime as an explicit number `seed`.
* Pointers are addresses into an explicit heap, so that copying and writing
  through a pointer are visible in the model.
* Calls that leave the process (list, post) are function parameters.
-/

namespace VMImport

/-! ## Strings -/

/-- Formatting with one string operand, `fmt.Sprintf(format, arg)`: the first
`%s` verb is replaced by the operand, text around it is copied. A format
without a verb gets the operand appended in the `%!(EXTRA ...)` form, as the
Go library does. Other verbs do not occur in the formats of this repository. -/
def sprintfChars : List Char → List Char → List Char
  | [], arg => "%!(EXTRA string=".data ++ arg ++ [')']
  | '%' :: 's' :: rest, arg => arg ++ rest
  | c :: rest, arg => c :: sprintfChars rest arg

/-- Wrapper of `sprintfChars` on strings: `fmt.Sprintf(format, arg)`. -/
def Sprintf (format arg : String) : String :=
  String.mk (sprintfChars format.data arg.data)

/-- Concatenation with a separator, `strings.Join(elems, sep)`. -/
def stringsJoin : List String → String → String
  | [], _ => ""
  | [a], _ => a
  | a :: b :: rest, sep => a ++ sep ++ stringsJoin (b :: rest) sep

/-- The clauses of a label selector: the empty selector has no clause, any
other selector is cut at every comma (the selector grammar of the store). -/
def selectorClauses (selector : String) : List String :=
  if selector = "" then [] else (selector.data.splitOn ',').map String.mk

/-! ## Go maps -/

/-- A Go `map[string]string`, as an association list. -/
abbrev GoMap := List (String × String)

/-- Assignment `m[k] = v`: overwrite the entry of `k` when there is one, add
an entry otherwise. -/
def mapSet : GoMap → String → String → GoMap
  | [], k, v => [(k, v)]
  | (k', v') :: rest, k, v =>
    if k' = k then (k, v) :: rest else (k', v') :: mapSet rest k v

/-- The keys of a map, in the order of the association list. -/
def mapKeys (m : GoMap) : List String := m.map Prod.fst

/-- The order in which a `range` loop visits a list of keys. The language leaves
the order open; `seed` is the choice of the runtime, read in the factorial
number system, so that every arrangement is the image of some seed. -/
def rangeOrder (seed : Nat) : List String → List String
  | [] => []
  | k :: ks => (rangeOrder (seed / (ks.length + 1)) ks).insertIdx (seed % (ks.length + 1)) k

/-! ## pkg/templates: constants -/

/-- TemplateOsLabel is a label that specifies the OS of the template. -/
def TemplateOsLabel : String := "os.template.kubevirt.io/%s"

/-- TemplateWorkloadLabel is a label that specifies the workload of the template. -/
def TemplateWorkloadLabel : String := "workload.template.kubevirt.io/%s"

/-- TemplateFlavorLabel is a label that specifies the flavor of the template. -/
def TemplateFlavorLabel : String := "flavor.template.kubevirt.io/%s"

/-- Resource of the processing endpoint. -/
def processingURI : String := "processedTemplates"

/-- Name of the reserved parameter. -/
def nameParameter : String := "NAME"

/-- Value written into every parameter that is not the reserved one. -/
def otherValue : String := "other"

/-! ## pkg/templates: selector construction -/

/-- OSLabelBuilder builds template labels based on template criteria. A nil
pointer is `none`. -/
def OSLabelBuilder (os workload flavor : Option String) : GoMap :=
  let labels : GoMap := []
  let labels := match os with
    | some v => mapSet labels (Sprintf TemplateOsLabel v) "true"
    | none => labels
  let labels := match workload with
    | some v => mapSet labels (Sprintf TemplateWorkloadLabel v) "true"
    | none => labels
  let labels := match flavor with
    | some v => mapSet labels (Sprintf TemplateFlavorLabel v) "true"
    | none => labels
  labels

/-- The function osLabelSelectorBuilder builds the label selector based on
template criteria: the keys of the label map, in the order the `range` loop
yields them, joined by commas. -/
def osLabelSelectorBuilder (seed : Nat) (os workload flavor : Option String) : String :=
  let labels := OSLabelBuilder os workload flavor
  let keys := rangeOrder seed (mapKeys labels)
  stringsJoin keys ","

/-- An error value of Go. -/
abbrev GoError := String

/-- Find looks for a template based on given namespace and options. The store
is the parameter `list` (namespace, label selector); `ns` is the pointer
`namespace` and the result `none` is its nil dereference. -/
def Find {α : Type} (list : String → String → Except GoError α) (seed : Nat)
    (ns os workload flavor : Option String) : Option (Except GoError α) :=
  let labelSelector := osLabelSelectorBuilder seed os workload flavor
  match ns with
  | none => none
  | some n => some (list n labelSelector)

/-! ## pkg/templates: parameterization -/

/-- A template parameter (`templatev1.Parameter` of the OpenShift API). -/
structure Parameter where
  Name : String
  DisplayName : String
  Description : String
  Value : String
  Generate : String
  From : String
  Required : Bool
  deriving DecidableEq, Repr

/-- A template (`templatev1.Template`), over the representation `P` of its
`Parameters` slice. Only that slice is written by this package, so the
other fields are plain values. -/
structure TemplateOf (P : Type) where
  Name : String
  Namespace : String
  Labels : GoMap
  Message : String
  Objects : List String
  Parameters : P
  ObjectLabels : GoMap
  deriving DecidableEq, Repr

/-- Replace the representation of the parameters, keep every other field. -/
def TemplateOf.withParameters {P Q : Type} (t : TemplateOf P) (ps : Q) : TemplateOf Q :=
  { Name := t.Name, Namespace := t.Namespace, Labels := t.Labels, Message := t.Message,
    Objects := t.Objects, Parameters := ps, ObjectLabels := t.ObjectLabels }

/-- A template as a value: its parameters are the elements of the slice. This
is what is serialized into a request and read from a response. -/
abbrev Template := TemplateOf (List Parameter)

/-- A template struct in memory: its `Parameters` slice is the address of a
backing array. -/
abbrev TemplateObj := TemplateOf Nat

/-- The memory of the process: template structs and backing arrays of
parameter slices, each addressed by its position. A `*Template` is an
address of `templates`; an address outside of it is the nil pointer. -/
structure Heap where
  templates : List TemplateObj
  arrays : List (List Parameter)
  deriving DecidableEq, Repr

/-- The value a pointer refers to; `none` for a pointer that refers to nothing. -/
def Heap.read (h : Heap) (p : Nat) : Option Template :=
  match h.templates[p]? with
  | none => none
  | some t =>
    match h.arrays[t.Parameters]? with
    | none => none
    | some ps => some (t.withParameters ps)

/-- Allocation of a new struct and a new backing array holding `v`; returns
the new memory and the address of the struct. -/
def Heap.store (h : Heap) (v : Template) : Heap × Nat :=
  ({ templates := h.templates ++ [v.withParameters h.arrays.length],
     arrays := h.arrays ++ [v.Parameters] }, h.templates.length)

/-- Decoding `v` into the struct at `p`: the struct is overwritten and its
slice points to a new backing array. -/
def Heap.assign (h : Heap) (p : Nat) (v : Template) : Heap :=
  { templates := h.templates.set p (v.withParameters h.arrays.length),
    arrays := h.arrays ++ [v.Parameters] }

/-- The generated `DeepCopy` of `*Template`: a new struct whose slice has a
backing array of its own with copies of the elements. `none` when the
receiver refers to nothing (the nil receiver yields nil, which the caller
dereferences). -/
def DeepCopy (h : Heap) (template : Nat) : Option (Heap × Nat) :=
  match h.read template with
  | none => none
  | some v => some (h.store v)

/-- The zero value `v1.Template{}`. -/
def emptyTemplate : Template :=
  { Name := "", Namespace := "", Labels := [], Message := "", Objects := [],
    Parameters := [], ObjectLabels := [] }

/-- The assignment `temp.Parameters[i].Value = v`. -/
def setParamValue (h : Heap) (temp i : Nat) (v : String) : Heap :=
  match h.templates[temp]? with
  | none => h
  | some t =>
    match h.arrays[t.Parameters]? with
    | none => h
    | some ps =>
      match ps[i]? with
      | none => h
      | some q => { h with arrays := h.arrays.set t.Parameters (ps.set i { q with Value := v }) }

/-- One iteration of the loop of `Process` at index `i`: `param` is the
element `params[i]` as it is in memory when the iteration starts. -/
def processStep (vmName : Option String) (temp params i : Nat) (h : Heap) : Heap :=
  match h.arrays[params]? with
  | none => h
  | some ps =>
    match ps[i]? with
    | none => h
    | some param =>
      if param.Name = nameParameter then
        match vmName with
        | some name => setParamValue h temp i name
        | none => h
      else
        setParamValue h temp i otherValue

/-- The loop `for i, param := range params` of `Process`: `n` iterations
are left, the next index is `i`. -/
def processLoop (vmName : Option String) (temp params : Nat) : Nat → Nat → Heap → Heap
  | 0, _, h => h
  | n + 1, i, h => processLoop vmName temp params n (i + 1) (processStep vmName temp params i h)

/-- What a call of `Process` leaves behind: the memory, the body of the
request it sent, and the pair it returns (`none` is nil). -/
structure ProcessOutcome where
  heap : Heap
  sent : Template
  result : Option Nat
  err : Option GoError
  deriving DecidableEq, Repr

/-- Process calls the openshift api to process parameters. The client is the
parameter `post` (namespace, resource, body): it serializes the body, and
yields the decoded response or the error of the request or of the decoding.
`none` is the panic of a nil dereference. -/
def Process (post : String → String → Template → Except GoError Template) (h : Heap)
    (ns : String) (vmName : Option String) (template : Nat) : Option ProcessOutcome :=
  match DeepCopy h template with
  | none => none
  | some (h1, temp) =>
    match h1.templates[temp]? with
    | none => none
    | some t =>
      let params := t.Parameters
      match h1.arrays[params]? with
      | none => none
      | some elems =>
        let h2 := processLoop vmName temp params elems.length 0 h1
        let (h3, result) := h2.store emptyTemplate
        match h3.read temp with
        | none => none
        | some body =>
          match post ns processingURI body with
          | .error err => some { heap := h3, sent := body, result := none, err := some err }
          | .ok response =>
            some { heap := h3.assign result response, sent := body, result := some result,
                   err := none }

/-! ## tests/ovirt: lookup of temporary resources -/

/-- A config map of the store (`corev1.ConfigMap`). -/
structure ConfigMap where
  Name : String
  Namespace : String
  Labels : GoMap
  Data : GoMap
  deriving DecidableEq, Repr

/-- A secret of the store (`corev1.Secret`). -/
structure Secret where
  Name : String
  Namespace : String
  Labels : GoMap
  Data : GoMap
  deriving DecidableEq, Repr

/-- The lookup getTemporaryConfigMap. The store is the parameter `list`
(namespace, label selector) and `EnsureLabelValueLength` is the helper of
`pkg/utils`, which is not part of the sources read here. The result is the
returned pair, `none` is nil. -/
def getTemporaryConfigMap (list : String → String → Except GoError (List ConfigMap))
    (EnsureLabelValueLength : String → String) (ns vmiName : String) :
    Option ConfigMap × Option GoError :=
  let listOptions :=
    Sprintf "vmimport.v2v.kubevirt.io/vmi-name=%s" (EnsureLabelValueLength vmiName)
  match list ns listOptions with
  | .error err => (none, some err)
  | .ok items =>
    if items.length = 0 then (none, none)
    else (items[0]?, none)

/-- The lookup getTemporarySecret, with the same parameters as
`getTemporaryConfigMap`. -/
def getTemporarySecret (list : String → String → Except GoError (List Secret))
    (EnsureLabelValueLength : String → String) (ns vmiName : String) :
    Option Secret × Option GoError :=
  let listOptions :=
    Sprintf "vmimport.v2v.kubevirt.io/vmi-name=%s" (EnsureLabelValueLength vmiName)
  match list ns listOptions with
  | .error err => (none, some err)
  | .ok items =>
    if items.length = 0 then (none, none)
    else (items[0]?, none)

/-! ## Definitions used to state the properties -/

/-- The keys a selection puts into the label map, in the order of insertion. -/
def labelKeys (os workload flavor : Option String) : List String :=
  (os.map (fun v => "os.template.kubevirt.io/" ++ v)).toList
    ++ (workload.map (fun v => "workload.template.kubevirt.io/" ++ v)).toList
    ++ (flavor.map (fun v => "flavor.template.kubevirt.io/" ++ v)).toList

/-- The parameter the loop of `Process` leaves in place of `p`. -/
def paramAfter (vmName : Option String) (p : Parameter) : Parameter :=
  if p.Name = nameParameter then
    match vmName with
    | some name => { p with Value := name }
    | none => p
  else { p with Value := otherValue }

/-- The memory once the copy is parameterized and the result struct is
allocated: the copy and the zero struct follow what was there. -/
def heapBeforePost (h : Heap) (v : Template) (vmName : Option String) : Heap :=
  { templates := h.templates ++
      [v.withParameters h.arrays.length, emptyTemplate.withParameters (h.arrays.length + 1)],
    arrays := h.arrays ++ [v.Parameters.map (paramAfter vmName), []] }

/-- The body of the request of `Process` for the template value `v`. -/
def requestBody (v : Template) (vmName : Option String) : Template :=
  v.withParameters (v.Parameters.map (paramAfter vmName))

/-! ## Concrete inputs -/

/-- A parameter with the given name and value, the other fields empty. -/
def mkParam (n v : String) : Parameter :=
  { Name := n, DisplayName := "", Description := "", Value := v, Generate := "", From := "",
    Required := false }

/-- A template value with a `NAME` parameter and two others. -/
def sampleTemplate : Template :=
  { Name := "fedora", Namespace := "openshift", Labels := [], Message := "",
    Objects := ["vm"], ObjectLabels := [],
    Parameters := [mkParam "NAME" "x", mkParam "SRC_PVC_NAME" "y", mkParam "SRC_PVC_NAMESPACE" "z"] }

/-- A memory holding `sampleTemplate` at address 0. -/
def sampleHeap : Heap :=
  { templates := [sampleTemplate.withParameters 0], arrays := [sampleTemplate.Parameters] }

/-- A template value whose only parameter is `NAME`, with the value `x`. -/
def nameOnlyTemplate : Template :=
  { Name := "fedora", Namespace := "openshift", Labels := [], Message := "",
    Objects := [], ObjectLabels := [], Parameters := [mkParam "NAME" "x"] }

/-- A memory holding `nameOnlyTemplate` at address 0. -/
def nameOnlyHeap : Heap :=
  { templates := [nameOnlyTemplate.withParameters 0], arrays := [nameOnlyTemplate.Parameters] }

/-- A processing endpoint that answers with the body it received. -/
def postEcho : String → String → Template → Except GoError Template :=
  fun _ _ body => .ok body

/-- A processing endpoint that rejects every request. -/
def postFailing : String → String → Template → Except GoError Template :=
  fun _ _ _ => .error "the server rejected our request"

/-- A config map store without items. -/
def listNoConfigMaps : String → String → Except GoError (List ConfigMap) :=
  fun _ _ => .ok []

/-- A secret store without items. -/
def listNoSecrets : String → String → Except GoError (List Secret) :=
  fun _ _ => .ok []

/-- A config map named `a`. -/
def cmA : ConfigMap := { Name := "a", Namespace := "ns", Labels := [], Data := [] }

/-- A config map named `b`. -/
def cmB : ConfigMap := { Name := "b", Namespace := "ns", Labels := [], Data := [] }

/-- A secret named `a`. -/
def secretA : Secret := { Name := "a", Namespace := "ns", Labels := [], Data := [] }

/-- A secret named `b`. -/
def secretB : Secret := { Name := "b", Namespace := "ns", Labels := [], Data := [] }

/-! ## Lemmas on strings and maps -/

theorem sprintf_os (v : String) : Sprintf TemplateOsLabel v = "os.template.kubevirt.io/" ++ v := by
  apply String.ext
  simp [Sprintf, TemplateOsLabel, sprintfChars]

theorem sprintf_workload (v : String) :
    Sprintf TemplateWorkloadLabel v = "workload.template.kubevirt.io/" ++ v := by
  apply String.ext
  simp [Sprintf, TemplateWorkloadLabel, sprintfChars]

theorem sprintf_flavor (v : String) :
    Sprintf TemplateFlavorLabel v = "flavor.template.kubevirt.io/" ++ v := by
  apply String.ext
  simp [Sprintf, TemplateFlavorLabel, sprintfChars]

theorem os_ne_workload (a b : String) :
    "os.template.kubevirt.io/" ++ a ≠ "workload.template.kubevirt.io/" ++ b := by
  intro h
  have h2 := congrArg (fun s => s.data.head?) h
  simp at h2

theorem os_ne_flavor (a b : String) :
    "os.template.kubevirt.io/" ++ a ≠ "flavor.template.kubevirt.io/" ++ b := by
  intro h
  have h2 := congrArg (fun s => s.data.head?) h
  simp at h2

theorem workload_ne_flavor (a b : String) :
    "workload.template.kubevirt.io/" ++ a ≠ "flavor.template.kubevirt.io/" ++ b := by
  intro h
  have h2 := congrArg (fun s => s.data.head?) h
  simp at h2

theorem mapKeys_OSLabelBuilder (os workload flavor : Option String) :
    mapKeys (OSLabelBuilder os workload flavor) = labelKeys os workload flavor := by
  rcases os with _ | a <;> rcases workload with _ | b <;> rcases flavor with _ | c <;>
    simp [OSLabelBuilder, labelKeys, mapKeys, mapSet, sprintf_os, sprintf_workload,
      sprintf_flavor, os_ne_workload, os_ne_flavor, workload_ne_flavor]

theorem rangeOrder_perm (seed : Nat) (ks : List String) : (rangeOrder seed ks).Perm ks := by
  induction ks generalizing seed with
  | nil => simp [rangeOrder]
  | cons k ks ih =>
    have hlen : (rangeOrder (seed / (ks.length + 1)) ks).length = ks.length := (ih _).length_eq
    have hle : seed % (ks.length + 1) ≤ (rangeOrder (seed / (ks.length + 1)) ks).length := by
      rw [hlen]; exact Nat.lt_succ_iff.mp (Nat.mod_lt _ (Nat.succ_pos _))
    exact (List.perm_insertIdx k _ hle).trans ((ih _).cons k)

theorem stringsJoin_data (ks : List String) :
    (stringsJoin ks ",").data = [','].intercalate (ks.map String.data) := by
  induction ks with
  | nil => simp [stringsJoin, List.intercalate]
  | cons a rest ih =>
    cases rest with
    | nil => simp [stringsJoin, List.intercalate]
    | cons b rest =>
      simp only [stringsJoin, String.data_append, ih]
      simp [List.intercalate, List.intersperse]

theorem stringsJoin_eq_empty (ks : List String) (hne : ∀ k ∈ ks, k ≠ "") :
    stringsJoin ks "," = "" ↔ ks = [] := by
  constructor
  · intro h
    cases ks with
    | nil => rfl
    | cons a rest =>
      exfalso
      have ha : a ≠ "" := hne a (by simp)
      have hd := congrArg String.data h
      cases rest with
      | nil => exact ha h
      | cons b rest =>
        simp only [stringsJoin, String.data_append] at hd
        have : a.data = [] := by
          have := congrArg List.length hd
          simp at this
        exact ha (String.ext this)
  · intro h; subst h; rfl

theorem selectorClauses_join (ks : List String) (hne : ∀ k ∈ ks, k ≠ "")
    (hc : ∀ k ∈ ks, ',' ∉ k.data) : selectorClauses (stringsJoin ks ",") = ks := by
  unfold selectorClauses
  by_cases hks : ks = []
  · subst hks; simp [stringsJoin]
  · have h1 : stringsJoin ks "," ≠ "" := fun h => hks ((stringsJoin_eq_empty ks hne).mp h)
    rw [if_neg h1, stringsJoin_data, List.splitOn_intercalate]
    · simp [List.map_map, Function.comp_def]
    · intro l hl
      obtain ⟨k, hk, rfl⟩ := List.mem_map.mp hl
      exact hc k hk
    · simpa using hks

theorem labelKeys_ne_empty (os workload flavor : Option String) :
    ∀ k ∈ labelKeys os workload flavor, k ≠ "" := by
  intro k hk h
  subst h
  have key : ∀ (p v : String), p ≠ "" → "" ≠ p ++ v := by
    intro p v hp h
    have := congrArg String.length h
    simp at this
    have hp0 : p.length = 0 := by omega
    exact hp (String.ext (List.length_eq_zero.mp hp0))
  simp only [labelKeys, List.mem_append, Option.mem_toList, Option.mem_def, Option.map_eq_some']
    at hk
  rcases hk with (⟨v, _, h⟩ | ⟨v, _, h⟩) | ⟨v, _, h⟩
  · exact key _ v (by decide) h.symm
  · exact key _ v (by decide) h.symm
  · exact key _ v (by decide) h.symm


theorem set_of_getElem? {α : Type} (l : List α) (a : Nat) (x : α) (h : l[a]? = some x) :
    l.set a x = l := by
  apply List.ext_getElem?
  intro n
  by_cases hn : a = n
  · subst hn
    have hlt : a < l.length := by
      rcases List.getElem?_eq_some.mp h with ⟨hlt, _⟩
      exact hlt
    rw [List.getElem?_set_self hlt, h]
  · rw [List.getElem?_set_ne hn]

theorem set_append_cons {α : Type} (pre rest : List α) (p q : α) :
    (pre ++ p :: rest).set pre.length q = pre ++ q :: rest := by
  induction pre with
  | nil => rfl
  | cons x pre ih => simp [ih]

theorem getElem?_append_cons {α : Type} (pre rest : List α) (p : α) :
    (pre ++ p :: rest)[pre.length]? = some p := by
  induction pre with
  | nil => simp
  | cons x pre ih => simpa using ih

theorem setParamValue_eq (g : Heap) (temp a : Nat) (t : TemplateObj) (pre rest : List Parameter)
    (p : Parameter) (val : String) (ht : g.templates[temp]? = some t) (hta : t.Parameters = a)
    (ha : g.arrays[a]? = some (pre ++ p :: rest)) :
    setParamValue g temp pre.length val =
      { g with arrays := g.arrays.set a (pre ++ { p with Value := val } :: rest) } := by
  unfold setParamValue
  rw [ht]
  simp only [hta, ha]
  have hp : (pre ++ p :: rest)[pre.length]? = some p := getElem?_append_cons pre rest p
  rw [hp]
  simp only [set_append_cons]

theorem processStep_eq (vmName : Option String) (g : Heap) (temp a : Nat) (t : TemplateObj)
    (pre rest : List Parameter) (p : Parameter) (ht : g.templates[temp]? = some t)
    (hta : t.Parameters = a) (ha : g.arrays[a]? = some (pre ++ p :: rest)) :
    processStep vmName temp a pre.length g =
      { g with arrays := g.arrays.set a (pre ++ paramAfter vmName p :: rest) } := by
  unfold processStep
  rw [ha]
  have hp : (pre ++ p :: rest)[pre.length]? = some p := getElem?_append_cons pre rest p
  simp only [hp]
  unfold paramAfter
  by_cases hn : p.Name = nameParameter
  · rw [if_pos hn, if_pos hn]
    cases vmName with
    | none => simp only; rw [set_of_getElem? _ _ _ ha]
    | some name => exact setParamValue_eq g temp a t pre rest p name ht hta ha
  · rw [if_neg hn, if_neg hn]
    exact setParamValue_eq g temp a t pre rest p otherValue ht hta ha

theorem processLoop_eq (vmName : Option String) (temp a : Nat) (t : TemplateObj)
    (rest : List Parameter) :
    ∀ (pre : List Parameter) (g : Heap), g.templates[temp]? = some t → t.Parameters = a →
      g.arrays[a]? = some (pre ++ rest) →
      processLoop vmName temp a rest.length pre.length g =
        { g with arrays := g.arrays.set a (pre ++ rest.map (paramAfter vmName)) } := by
  induction rest with
  | nil =>
    intro pre g _ _ ha
    simp only [List.length_nil, processLoop, List.map_nil]
    rw [set_of_getElem? _ _ _ ha]
  | cons p rest ih =>
    intro pre g ht hta ha
    simp only [List.length_cons, processLoop]
    rw [processStep_eq vmName g temp a t pre rest p ht hta ha]
    have hlt : a < g.arrays.length := (List.getElem?_eq_some.mp ha).1
    have h1 := ih (pre ++ [paramAfter vmName p])
      { g with arrays := g.arrays.set a (pre ++ paramAfter vmName p :: rest) } ht hta
      (by simp [List.getElem?_set_self hlt])
    simp only [List.length_append, List.length_singleton] at h1
    rw [h1]
    simp [List.set_set]

theorem set_concat_length {α : Type} (l : List α) (x y : α) :
    (l ++ [x]).set l.length y = l ++ [y] := by
  exact set_append_cons l [] x y

theorem Process_eq (post : String → String → Template → Except GoError Template) (h : Heap)
    (ns : String) (vmName : Option String) (template : Nat) (v : Template)
    (hv : h.read template = some v) :
    Process post h ns vmName template =
      match post ns processingURI (requestBody v vmName) with
      | .error err =>
        some { heap := heapBeforePost h v vmName, sent := requestBody v vmName,
               result := none, err := some err }
      | .ok response =>
        some { heap := (heapBeforePost h v vmName).assign (h.templates.length + 1) response,
               sent := requestBody v vmName, result := some (h.templates.length + 1),
               err := none } := by
  have hloop := processLoop_eq vmName h.templates.length h.arrays.length
    (v.withParameters h.arrays.length) v.Parameters []
    { templates := h.templates ++ [v.withParameters h.arrays.length],
      arrays := h.arrays ++ [v.Parameters] }
    (by simp) rfl (by simp)
  simp only [List.length_nil, List.nil_append, set_concat_length] at hloop
  unfold Process DeepCopy
  rw [hv]
  simp only [Heap.store, List.getElem?_concat_length]
  have hparams : (v.withParameters h.arrays.length).Parameters = h.arrays.length := rfl
  simp only [hparams, List.getElem?_concat_length, hloop]
  have hread : Heap.read
      { templates := h.templates ++ [v.withParameters h.arrays.length] ++
          [emptyTemplate.withParameters (h.arrays ++ [v.Parameters.map (paramAfter vmName)]).length],
        arrays := h.arrays ++ [v.Parameters.map (paramAfter vmName)] ++ [emptyTemplate.Parameters] }
      h.templates.length = some (requestBody v vmName) := by
    unfold Heap.read
    simp only [List.append_assoc, List.singleton_append, getElem?_append_cons, hparams]
    rfl
  rw [hread]
  simp [heapBeforePost, emptyTemplate]

theorem read_heapBeforePost (h : Heap) (v w : Template) (vmName : Option String) (p : Nat)
    (hw : h.read p = some w) : (heapBeforePost h v vmName).read p = some w := by
  unfold Heap.read at hw ⊢
  cases ht : h.templates[p]? with
  | none => simp [ht] at hw
  | some t =>
    rw [ht] at hw
    simp only at hw
    cases ha : h.arrays[t.Parameters]? with
    | none => simp [ha] at hw
    | some ps =>
      rw [ha] at hw
      have hp : p < h.templates.length := (List.getElem?_eq_some.mp ht).1
      have hq : t.Parameters < h.arrays.length := (List.getElem?_eq_some.mp ha).1
      simp only [heapBeforePost, List.getElem?_append_left hp, ht,
        List.getElem?_append_left hq, ha]
      exact hw

theorem assign_heapBeforePost (h : Heap) (v response : Template) (vmName : Option String) :
    (heapBeforePost h v vmName).assign (h.templates.length + 1) response =
      { templates := h.templates ++
          [v.withParameters h.arrays.length, response.withParameters (h.arrays.length + 2)],
        arrays := h.arrays ++ [v.Parameters.map (paramAfter vmName), [], response.Parameters] } := by
  have hset : ∀ (l : List TemplateObj) (a b c : TemplateObj),
      (l ++ [a, b]).set (l.length + 1) c = l ++ [a, c] := by
    intro l a b c
    have h1 := set_append_cons (l ++ [a]) [] b c
    rw [List.length_append, List.length_singleton, List.append_assoc, List.append_assoc] at h1
    exact h1
  simp [Heap.assign, heapBeforePost, hset]

theorem read_after_post (h : Heap) (v w response : Template) (vmName : Option String) (p : Nat)
    (hw : h.read p = some w) :
    ((heapBeforePost h v vmName).assign (h.templates.length + 1) response).read p = some w := by
  rw [assign_heapBeforePost]
  unfold Heap.read at hw ⊢
  cases ht : h.templates[p]? with
  | none => simp [ht] at hw
  | some t =>
    rw [ht] at hw
    simp only at hw
    cases ha : h.arrays[t.Parameters]? with
    | none => simp [ha] at hw
    | some ps =>
      rw [ha] at hw
      have hp : p < h.templates.length := (List.getElem?_eq_some.mp ht).1
      have hq : t.Parameters < h.arrays.length := (List.getElem?_eq_some.mp ha).1
      simp only [List.getElem?_append_left hp, ht, List.getElem?_append_left hq, ha]
      exact hw

theorem read_result_after_post (h : Heap) (v response : Template) (vmName : Option String) :
    ((heapBeforePost h v vmName).assign (h.templates.length + 1) response).read
      (h.templates.length + 1) = some response := by
  rw [assign_heapBeforePost]
  unfold Heap.read
  have e1 : (h.templates ++ [v.withParameters h.arrays.length,
      response.withParameters (h.arrays.length + 2)])[h.templates.length + 1]?
      = some (response.withParameters (h.arrays.length + 2)) := by
    have := getElem?_append_cons (h.templates ++ [v.withParameters h.arrays.length]) []
      (response.withParameters (h.arrays.length + 2))
    simpa using this
  have e2 : (h.arrays ++ [v.Parameters.map (paramAfter vmName), [],
      response.Parameters])[h.arrays.length + 2]? = some response.Parameters := by
    have := getElem?_append_cons (h.arrays ++ [v.Parameters.map (paramAfter vmName), []]) []
      response.Parameters
    simpa using this
  rw [e1]
  have hpar : (response.withParameters (h.arrays.length + 2)).Parameters = h.arrays.length + 2 :=
    rfl
  simp only [hpar, e2]
  rfl

theorem insertIdx_length_append {α : Type} (a b : List α) (k : α) :
    (a ++ b).insertIdx a.length k = a ++ k :: b := by
  induction a with
  | nil => simp
  | cons x a ih => simp [List.insertIdx_succ_cons, ih]

/-- Every arrangement of the keys is the iteration order of some seed: the
model of `range` leaves out no order the runtime may choose. -/
theorem rangeOrder_reaches_every_order (ks : List String) :
    ∀ order : List String, order.Perm ks → ∃ seed, rangeOrder seed ks = order := by
  induction ks with
  | nil =>
    intro order h
    exact ⟨0, by rw [List.perm_nil.mp h]; rfl⟩
  | cons k ks ih =>
    intro order h
    have hk : k ∈ order := h.mem_iff.mpr (List.mem_cons_self k ks)
    obtain ⟨a, b, rfl⟩ := List.append_of_mem hk
    have hab : (a ++ b).Perm ks := (List.perm_middle.symm.trans h).cons_inv
    obtain ⟨s, hs⟩ := ih (a ++ b) hab
    have hlen : a.length < ks.length + 1 := by
      have := hab.length_eq
      rw [List.length_append] at this
      omega
    refine ⟨s * (ks.length + 1) + a.length, ?_⟩
    have hdiv : (s * (ks.length + 1) + a.length) / (ks.length + 1) = s := by
      rw [Nat.mul_comm, Nat.mul_add_div (Nat.succ_pos _), Nat.div_eq_of_lt hlen, Nat.add_zero]
    have hmod : (s * (ks.length + 1) + a.length) % (ks.length + 1) = a.length := by
      rw [Nat.mul_comm, Nat.mul_add_mod, Nat.mod_eq_of_lt hlen]
    simp only [rangeOrder, hdiv, hmod, hs]
    exact insertIdx_length_append a b k

theorem rangeOrder_singleton (seed : Nat) (k : String) : rangeOrder seed [k] = [k] := by
  simp [rangeOrder, Nat.mod_one]

theorem osLabelSelectorBuilder_eq (seed : Nat) (os workload flavor : Option String) :
    osLabelSelectorBuilder seed os workload flavor
      = stringsJoin (rangeOrder seed (labelKeys os workload flavor)) "," := by
  simp only [osLabelSelectorBuilder, mapKeys_OSLabelBuilder]

/-! ## Selector construction -/

/-- C1, as amended: for every choice of present and absent dimensions whose
present values contain no comma, and for every iteration order of the label
map, the clauses of the selector are, up to order, exactly one key per present
dimension (`os.template.kubevirt.io/<os>`, `workload.template.kubevirt.io/<workload>`,
`flavor.template.kubevirt.io/<flavor>`) and nothing for an absent one; the
selector is empty exactly when all three are absent; and this selector is
the one `Find` hands to the store. -/
theorem selector_one_clause_per_present_dimension (seed : Nat)
    (os workload flavor : Option String)
    (hos : ∀ v ∈ os, ',' ∉ v.data) (hworkload : ∀ v ∈ workload, ',' ∉ v.data)
    (hflavor : ∀ v ∈ flavor, ',' ∉ v.data) :
    (selectorClauses (osLabelSelectorBuilder seed os workload flavor)).Perm
        ((os.map (fun v => "os.template.kubevirt.io/" ++ v)).toList
          ++ (workload.map (fun v => "workload.template.kubevirt.io/" ++ v)).toList
          ++ (flavor.map (fun v => "flavor.template.kubevirt.io/" ++ v)).toList)
      ∧ (osLabelSelectorBuilder seed os workload flavor = ""
          ↔ os = none ∧ workload = none ∧ flavor = none)
      ∧ ∀ (list : String → String → Except GoError Unit) (n : String),
          Find list seed (some n) os workload flavor
            = some (list n (osLabelSelectorBuilder seed os workload flavor)) := by
  have hperm := rangeOrder_perm seed (labelKeys os workload flavor)
  have hne : ∀ k ∈ rangeOrder seed (labelKeys os workload flavor), k ≠ "" :=
    fun k hk => labelKeys_ne_empty os workload flavor k (hperm.mem_iff.mp hk)
  have hcomma : ∀ k ∈ rangeOrder seed (labelKeys os workload flavor), ',' ∉ k.data := by
    intro k hk
    have hk2 := hperm.mem_iff.mp hk
    simp only [labelKeys, List.mem_append, Option.mem_toList, Option.mem_def,
      Option.map_eq_some'] at hk2
    rcases hk2 with (⟨v, hv, rfl⟩ | ⟨v, hv, rfl⟩) | ⟨v, hv, rfl⟩
    · have := hos v hv
      simp only [String.data_append, List.mem_append, not_or]
      exact ⟨by decide, this⟩
    · have := hworkload v hv
      simp only [String.data_append, List.mem_append, not_or]
      exact ⟨by decide, this⟩
    · have := hflavor v hv
      simp only [String.data_append, List.mem_append, not_or]
      exact ⟨by decide, this⟩
  have hsel : osLabelSelectorBuilder seed os workload flavor
      = stringsJoin (rangeOrder seed (labelKeys os workload flavor)) "," := by
    simp only [osLabelSelectorBuilder, mapKeys_OSLabelBuilder]
  refine ⟨?_, ?_, fun _ _ => rfl⟩
  · rw [hsel, selectorClauses_join _ hne hcomma]
    exact hperm
  · rw [hsel, stringsJoin_eq_empty _ hne]
    constructor
    · intro h
      have h2 : labelKeys os workload flavor = [] := by
        have := hperm.length_eq
        rw [h] at this
        exact List.length_eq_zero.mp this.symm
      rcases os with _ | a <;> rcases workload with _ | b <;> rcases flavor with _ | c <;>
        simp [labelKeys] at h2 ⊢
    · rintro ⟨rfl, rfl, rfl⟩
      rfl

/-- Witness of C1: the selection fedora, server, no flavor, under the iteration
order 1. -/
theorem selector_one_clause_per_present_dimension_witness :
    (selectorClauses (osLabelSelectorBuilder 1 (some "fedora") (some "server") none)).Perm
        (((some "fedora").map (fun v => "os.template.kubevirt.io/" ++ v)).toList
          ++ ((some "server").map (fun v => "workload.template.kubevirt.io/" ++ v)).toList
          ++ ((none : Option String).map (fun v => "flavor.template.kubevirt.io/" ++ v)).toList)
      ∧ (osLabelSelectorBuilder 1 (some "fedora") (some "server") none = ""
          ↔ some "fedora" = none ∧ some "server" = none ∧ (none : Option String) = none)
      ∧ ∀ (list : String → String → Except GoError Unit) (n : String),
          Find list 1 (some n) (some "fedora") (some "server") none
            = some (list n (osLabelSelectorBuilder 1 (some "fedora") (some "server") none)) :=
  selector_one_clause_per_present_dimension 1 (some "fedora") (some "server") none
    (by decide) (by decide) (by decide)

/-- Counterexample to C1 as stated: with the os value `a,b` and nothing else,
the selector cut at commas has the two clauses `os.template.kubevirt.io/a`
and `b`, not the single key `os.template.kubevirt.io/a,b`. -/
theorem selector_comma_in_value_splits_clause :
    selectorClauses (osLabelSelectorBuilder 0 (some "a,b") none none)
        = ["os.template.kubevirt.io/a", "b"]
      ∧ ¬ (selectorClauses (osLabelSelectorBuilder 0 (some "a,b") none none)).Perm
          (((some "a,b").map (fun v => "os.template.kubevirt.io/" ++ v)).toList
            ++ ((none : Option String).map (fun v => "workload.template.kubevirt.io/" ++ v)).toList
            ++ ((none : Option String).map (fun v => "flavor.template.kubevirt.io/" ++ v)).toList) := by
  refine ⟨by decide, fun h => ?_⟩
  have hlen := h.length_eq
  revert hlen
  decide

/-- C2, as amended: two evaluations of the builder on one input yield
selectors that join the same keys, the keys of the label map, possibly in a
different order; when at most one dimension is present the two selector
strings are equal. -/
theorem selector_same_keys_any_order (seed1 seed2 : Nat) (os workload flavor : Option String) :
    (∃ keys1 keys2 : List String,
        osLabelSelectorBuilder seed1 os workload flavor = stringsJoin keys1 ","
        ∧ osLabelSelectorBuilder seed2 os workload flavor = stringsJoin keys2 ","
        ∧ keys1.Perm keys2
        ∧ keys1.Perm (mapKeys (OSLabelBuilder os workload flavor)))
      ∧ osLabelSelectorBuilder seed1 os none none = osLabelSelectorBuilder seed2 os none none
      ∧ osLabelSelectorBuilder seed1 none workload none
          = osLabelSelectorBuilder seed2 none workload none
      ∧ osLabelSelectorBuilder seed1 none none flavor
          = osLabelSelectorBuilder seed2 none none flavor := by
  refine ⟨⟨rangeOrder seed1 (mapKeys (OSLabelBuilder os workload flavor)),
    rangeOrder seed2 (mapKeys (OSLabelBuilder os workload flavor)), rfl, rfl,
    (rangeOrder_perm _ _).trans (rangeOrder_perm _ _).symm, rangeOrder_perm _ _⟩, ?_, ?_, ?_⟩
  · rw [osLabelSelectorBuilder_eq, osLabelSelectorBuilder_eq]
    cases os with
    | none => simp [labelKeys, rangeOrder]
    | some v => simp [labelKeys, rangeOrder_singleton]
  · rw [osLabelSelectorBuilder_eq, osLabelSelectorBuilder_eq]
    cases workload with
    | none => simp [labelKeys, rangeOrder]
    | some v => simp [labelKeys, rangeOrder_singleton]
  · rw [osLabelSelectorBuilder_eq, osLabelSelectorBuilder_eq]
    cases flavor with
    | none => simp [labelKeys, rangeOrder]
    | some v => simp [labelKeys, rangeOrder_singleton]

/-- Counterexample to C2 as stated: on the input os `a`, workload `b`, two
iteration orders of the label map yield two different selector strings. -/
theorem selector_depends_on_iteration_order :
    osLabelSelectorBuilder 0 (some "a") (some "b") none
        = "os.template.kubevirt.io/a,workload.template.kubevirt.io/b"
      ∧ osLabelSelectorBuilder 1 (some "a") (some "b") none
        = "workload.template.kubevirt.io/b,os.template.kubevirt.io/a"
      ∧ osLabelSelectorBuilder 0 (some "a") (some "b") none
        ≠ osLabelSelectorBuilder 1 (some "a") (some "b") none := by
  decide

/-! ## Parameterization -/

theorem requestBody_parameters (v : Template) (vmName : Option String) :
    (requestBody v vmName).Parameters = v.Parameters.map (paramAfter vmName) := rfl

theorem Process_sent (post : String → String → Template → Except GoError Template) (h : Heap)
    (ns : String) (vmName : Option String) (template : Nat) (v : Template)
    (hv : h.read template = some v) :
    ∃ out, Process post h ns vmName template = some out ∧ out.sent = requestBody v vmName
      ∧ (∀ w p, h.read p = some w → out.heap.read p = some w)
      ∧ out.heap.templates.take h.templates.length = h.templates
      ∧ out.heap.arrays.take h.arrays.length = h.arrays := by
  rw [Process_eq post h ns vmName template v hv]
  cases post ns processingURI (requestBody v vmName) with
  | error err =>
    exact ⟨_, rfl, rfl, fun w p hw => read_heapBeforePost h v w vmName p hw,
      by simp [heapBeforePost], by simp [heapBeforePost]⟩
  | ok response =>
    refine ⟨_, rfl, rfl, fun w p hw => read_after_post h v w response vmName p hw, ?_, ?_⟩
    · simp only [assign_heapBeforePost]; simp
    · simp only [assign_heapBeforePost]; simp

/-- C3: for a template value `v` at the address `template` and a provided
target name, `Process` returns, and the template it submits has the
parameters of `v` under the same names in the same order, where every
parameter named `NAME` has the target name as its value and every other
parameter has the value `other`, whatever the values in `v` were. -/
theorem Process_with_name_sets_name_and_other
    (post : String → String → Template → Except GoError Template) (h : Heap)
    (ns name : String) (template : Nat) (v : Template) (hv : h.read template = some v) :
    ∃ out, Process post h ns (some name) template = some out
      ∧ out.sent.Parameters.map (fun q => q.Name) = v.Parameters.map (fun p => p.Name)
      ∧ ∀ q ∈ out.sent.Parameters,
          (q.Name = nameParameter → q.Value = name)
          ∧ (q.Name ≠ nameParameter → q.Value = otherValue) := by
  obtain ⟨out, hout, hsent, -⟩ := Process_sent post h ns (some name) template v hv
  refine ⟨out, hout, ?_, ?_⟩
  · rw [hsent, requestBody_parameters, List.map_map]
    apply List.map_congr_left
    intro p _
    simp only [Function.comp, paramAfter]
    split <;> rfl
  · intro q hq
    rw [hsent, requestBody_parameters] at hq
    obtain ⟨p, _, rfl⟩ := List.mem_map.mp hq
    unfold paramAfter
    by_cases hn : p.Name = nameParameter
    · simp [hn]
    · simp [hn]

/-- Witness of C3: the sample template, target name `vm`, an endpoint that
answers with the body. -/
theorem Process_with_name_sets_name_and_other_witness :
    sampleHeap.read 0 = some sampleTemplate
      ∧ ∃ out, Process postEcho sampleHeap "default" (some "vm") 0 = some out
        ∧ out.sent.Parameters.map (fun q => q.Name)
            = sampleTemplate.Parameters.map (fun p => p.Name)
        ∧ ∀ q ∈ out.sent.Parameters,
            (q.Name = nameParameter → q.Value = "vm")
            ∧ (q.Name ≠ nameParameter → q.Value = otherValue) :=
  ⟨by decide, Process_with_name_sets_name_and_other postEcho sampleHeap "default" "vm" 0
    sampleTemplate (by decide)⟩

/-- C4: for every memory, every template value `v` at the address `template`,
every target name (present or absent) and every answer of the endpoint
(success or failure), `Process` returns and leaves the input as it was: the
address `template` still holds `v`, with every parameter at its original
value, and every struct and backing array that existed before the call is
unchanged, so all writes went to what the call allocated. -/
theorem Process_does_not_mutate_input
    (post : String → String → Template → Except GoError Template) (h : Heap)
    (ns : String) (vmName : Option String) (template : Nat) (v : Template)
    (hv : h.read template = some v) :
    ∃ out, Process post h ns vmName template = some out
      ∧ out.heap.read template = some v
      ∧ out.heap.templates.take h.templates.length = h.templates
      ∧ out.heap.arrays.take h.arrays.length = h.arrays := by
  obtain ⟨out, hout, -, hread, ht, ha⟩ := Process_sent post h ns vmName template v hv
  exact ⟨out, hout, hread v template hv, ht, ha⟩

/-- Witness of C4: the sample template, target name `vm`, an endpoint that
rejects the request. -/
theorem Process_does_not_mutate_input_witness :
    sampleHeap.read 0 = some sampleTemplate
      ∧ ∃ out, Process postFailing sampleHeap "default" (some "vm") 0 = some out
        ∧ out.heap.read 0 = some sampleTemplate
        ∧ out.heap.templates.take sampleHeap.templates.length = sampleHeap.templates
        ∧ out.heap.arrays.take sampleHeap.arrays.length = sampleHeap.arrays :=
  ⟨by decide, Process_does_not_mutate_input postFailing sampleHeap "default" (some "vm") 0
    sampleTemplate (by decide)⟩

/-- C5: `Process` returns and the submitted template has as many parameters as
the input; position by position the name is kept, a parameter with another
name than `NAME` gets the value `other`, and a parameter named `NAME` keeps
its prior value when no target name is given and takes the target name when
one is given. -/
theorem Process_name_kept_without_target
    (post : String → String → Template → Except GoError Template) (h : Heap)
    (ns : String) (vmName : Option String) (template : Nat) (v : Template)
    (hv : h.read template = some v) :
    ∃ out, Process post h ns vmName template = some out
      ∧ out.sent.Parameters.length = v.Parameters.length
      ∧ ∀ (i : Nat) (p q : Parameter), v.Parameters[i]? = some p →
          out.sent.Parameters[i]? = some q →
          q.Name = p.Name
          ∧ (p.Name ≠ nameParameter → q.Value = otherValue)
          ∧ (p.Name = nameParameter → vmName = none → q.Value = p.Value)
          ∧ (p.Name = nameParameter → ∀ name, vmName = some name → q.Value = name) := by
  obtain ⟨out, hout, hsent, -⟩ := Process_sent post h ns vmName template v hv
  refine ⟨out, hout, ?_, ?_⟩
  · rw [hsent, requestBody_parameters, List.length_map]
  · intro i p q hp hq
    rw [hsent, requestBody_parameters, List.getElem?_map, hp] at hq
    simp only [Option.map_some', Option.some.injEq] at hq
    subst hq
    unfold paramAfter
    by_cases hn : p.Name = nameParameter
    · cases vmName with
      | none => simp [hn]
      | some name => simp [hn]
    · simp [hn]

/-- Witness of C5: the sample template without a target name. -/
theorem Process_name_kept_without_target_witness :
    sampleHeap.read 0 = some sampleTemplate
      ∧ ∃ out, Process postEcho sampleHeap "default" none 0 = some out
        ∧ out.sent.Parameters.length = sampleTemplate.Parameters.length
        ∧ ∀ (i : Nat) (p q : Parameter), sampleTemplate.Parameters[i]? = some p →
            out.sent.Parameters[i]? = some q →
            q.Name = p.Name
            ∧ (p.Name ≠ nameParameter → q.Value = otherValue)
            ∧ (p.Name = nameParameter → (none : Option String) = none → q.Value = p.Value)
            ∧ (p.Name = nameParameter → ∀ name, (none : Option String) = some name →
                q.Value = name) :=
  ⟨by decide, Process_name_kept_without_target postEcho sampleHeap "default" none 0
    sampleTemplate (by decide)⟩

/-- C6, as amended: the template `Process` submits is the input template with
each parameter changed in its value only: the value is the target name if
the parameter is named `NAME` and a target name is provided, it stays what it
was if the parameter is named `NAME` and no target name is provided, and it
is the constant `other` for every parameter with another name. -/
theorem Process_value_per_parameter
    (post : String → String → Template → Except GoError Template) (h : Heap)
    (ns : String) (vmName : Option String) (template : Nat) (v : Template)
    (hv : h.read template = some v) :
    ∃ out, Process post h ns vmName template = some out
      ∧ out.sent = { v with Parameters := v.Parameters.map (fun p =>
          { p with Value :=
              if p.Name = nameParameter then
                (match vmName with
                 | some name => name
                 | none => p.Value)
              else otherValue }) } := by
  obtain ⟨out, hout, hsent, -⟩ := Process_sent post h ns vmName template v hv
  refine ⟨out, hout, ?_⟩
  rw [hsent]
  unfold requestBody TemplateOf.withParameters
  congr 1
  apply List.map_congr_left
  intro p _
  unfold paramAfter
  by_cases hn : p.Name = nameParameter
  · cases vmName with
    | none => rw [if_pos hn, if_pos hn]
    | some name => rw [if_pos hn, if_pos hn]
  · rw [if_neg hn, if_neg hn]

/-- Witness of C6: the sample template, target name `vm`. -/
theorem Process_value_per_parameter_witness :
    sampleHeap.read 0 = some sampleTemplate
      ∧ ∃ out, Process postEcho sampleHeap "default" (some "vm") 0 = some out
        ∧ out.sent = { sampleTemplate with Parameters := sampleTemplate.Parameters.map (fun p =>
            { p with Value :=
                if p.Name = nameParameter then
                  (match (some "vm" : Option String) with
                   | some name => name
                   | none => p.Value)
                else otherValue }) } :=
  ⟨by decide, Process_value_per_parameter postEcho sampleHeap "default" (some "vm") 0
    sampleTemplate (by decide)⟩

/-- Counterexample to C6 as stated: for a template whose only parameter is
`NAME` with the value `x`, called without a target name, `Process` submits
the parameter with the value `x`, which is not the constant `other`. -/
theorem Process_name_without_target_is_not_other :
    nameOnlyHeap.read 0 = some nameOnlyTemplate
      ∧ (Process postEcho nameOnlyHeap "default" none 0).map
          (fun out => out.sent.Parameters.map (fun q => (q.Name, q.Value)))
          = some [("NAME", "x")]
      ∧ "x" ≠ otherValue := by
  decide

/-- C9: `Process` returns, and what it returns follows the answer of the
endpoint to the submitted template in the given namespace under the resource
`processedTemplates`: when the call fails, the error returned is the error
of the call and the template returned is nil; when the call succeeds, no
error is returned and the returned pointer holds the decoded response. -/
theorem Process_all_or_nothing
    (post : String → String → Template → Except GoError Template) (h : Heap)
    (ns : String) (vmName : Option String) (template : Nat) (v : Template)
    (hv : h.read template = some v) :
    ∃ out, Process post h ns vmName template = some out
      ∧ (∀ err, post ns "processedTemplates" out.sent = .error err →
          out.err = some err ∧ out.result = none)
      ∧ (∀ response, post ns "processedTemplates" out.sent = .ok response →
          out.err = none ∧ ∃ r, out.result = some r ∧ out.heap.read r = some response)
      ∧ (out.err ≠ none ↔ ∃ err, post ns "processedTemplates" out.sent = .error err) := by
  rw [Process_eq post h ns vmName template v hv]
  have huri : processingURI = "processedTemplates" := rfl
  rw [huri]
  cases hpost : post ns "processedTemplates" (requestBody v vmName) with
  | error err =>
    refine ⟨_, rfl, ?_, ?_, ?_⟩
    · intro e he
      simp only [hpost, Except.error.injEq] at he
      subst he
      exact ⟨rfl, rfl⟩
    · intro response he
      simp only [hpost] at he
      cases he
    · simp only [hpost]
      simp
  | ok response =>
    refine ⟨_, rfl, ?_, ?_, ?_⟩
    · intro e he
      simp only [hpost] at he
      cases he
    · intro r he
      simp only [hpost, Except.ok.injEq] at he
      subst he
      exact ⟨rfl, _, rfl, read_result_after_post h v response vmName⟩
    · simp only [hpost]
      simp

/-- Witness of C9: the sample template and an endpoint that rejects the
request. -/
theorem Process_all_or_nothing_witness :
    sampleHeap.read 0 = some sampleTemplate
      ∧ ∃ out, Process postFailing sampleHeap "default" (some "vm") 0 = some out
        ∧ (∀ err, postFailing "default" "processedTemplates" out.sent = .error err →
            out.err = some err ∧ out.result = none)
        ∧ (∀ response, postFailing "default" "processedTemplates" out.sent = .ok response →
            out.err = none ∧ ∃ r, out.result = some r ∧ out.heap.read r = some response)
        ∧ (out.err ≠ none ↔
            ∃ err, postFailing "default" "processedTemplates" out.sent = .error err) :=
  ⟨by decide, Process_all_or_nothing postFailing sampleHeap "default" (some "vm") 0
    sampleTemplate (by decide)⟩

/-! ## Lookup of temporary resources -/

/-- C7: for every namespace and name, when the list call of the store (under
the selector the lookup builds) succeeds with zero items, `getTemporaryConfigMap`
and `getTemporarySecret` each return nil together with no error. -/
theorem lookup_absence_is_not_an_error
    (listConfigMaps : String → String → Except GoError (List ConfigMap))
    (listSecrets : String → String → Except GoError (List Secret))
    (EnsureLabelValueLength : String → String) (ns vmiName : String)
    (hcm : listConfigMaps ns
      (Sprintf "vmimport.v2v.kubevirt.io/vmi-name=%s" (EnsureLabelValueLength vmiName)) = .ok [])
    (hsecret : listSecrets ns
      (Sprintf "vmimport.v2v.kubevirt.io/vmi-name=%s" (EnsureLabelValueLength vmiName)) = .ok []) :
    getTemporaryConfigMap listConfigMaps EnsureLabelValueLength ns vmiName = (none, none)
      ∧ getTemporarySecret listSecrets EnsureLabelValueLength ns vmiName = (none, none) := by
  constructor
  · simp [getTemporaryConfigMap, hcm]
  · simp [getTemporarySecret, hsecret]

/-- Witness of C7: stores without items. -/
theorem lookup_absence_is_not_an_error_witness :
    getTemporaryConfigMap listNoConfigMaps id "ns" "basic-vm" = (none, none)
      ∧ getTemporarySecret listNoSecrets id "ns" "basic-vm" = (none, none) :=
  lookup_absence_is_not_an_error listNoConfigMaps listNoSecrets id "ns" "basic-vm" rfl rfl

/-- C8: for every successful listing with one or more items, whatever follows
the first item, `getTemporaryConfigMap` and `getTemporarySecret` return the
first item in listing order and no error. -/
theorem lookup_first_match_wins
    (listConfigMaps : String → String → Except GoError (List ConfigMap))
    (listSecrets : String → String → Except GoError (List Secret))
    (EnsureLabelValueLength : String → String) (ns vmiName : String)
    (cm : ConfigMap) (moreConfigMaps : List ConfigMap) (sec : Secret) (moreSecrets : List Secret)
    (hcm : listConfigMaps ns
      (Sprintf "vmimport.v2v.kubevirt.io/vmi-name=%s" (EnsureLabelValueLength vmiName))
        = .ok (cm :: moreConfigMaps))
    (hsecret : listSecrets ns
      (Sprintf "vmimport.v2v.kubevirt.io/vmi-name=%s" (EnsureLabelValueLength vmiName))
        = .ok (sec :: moreSecrets)) :
    getTemporaryConfigMap listConfigMaps EnsureLabelValueLength ns vmiName = (some cm, none)
      ∧ getTemporarySecret listSecrets EnsureLabelValueLength ns vmiName = (some sec, none) := by
  constructor
  · simp [getTemporaryConfigMap, hcm]
  · simp [getTemporarySecret, hsecret]

/-- Witness of C8: stores that list two items each. -/
theorem lookup_first_match_wins_witness :
    getTemporaryConfigMap (fun _ _ => .ok [cmA, cmB]) id "ns" "basic-vm" = (some cmA, none)
      ∧ getTemporarySecret (fun _ _ => .ok [secretA, secretB]) id "ns" "basic-vm"
          = (some secretA, none) :=
  lookup_first_match_wins (fun _ _ => .ok [cmA, cmB]) (fun _ _ => .ok [secretA, secretB]) id
    "ns" "basic-vm" cmA [cmB] secretA [secretB] rfl rfl

end VMImport
